import Mathlib

/-!
Shallow embedding of the LLM response-processing pipeline of
`src/llm2git/processor.py` (class `LLMResponseProcessor`), together with
proofs about the natural-language specification's claims on it.

Conventions of the embedding:
* Python `str` is Lean `String` (both are sequences of unicode code points;
  Python `len`, slicing, `split`, `strip`, … are the `py…` helpers below,
  defined over `String.data` so that everything reduces in the kernel).
* Python dicts of heterogeneous JSON-like data are the `JVal` type below;
  insertion order and in-place update semantics are modelled explicitly.
* `json.loads` is modelled by the executable parser `jsonParse`.
* `yaml.safe_load` (an external library, used only for a success test in
  `_detect_response_type`) is abstracted as an oracle `yamlOk : String → Bool`
  meaning "safe_load returns without raising".
* The regular expressions of the source are compiled, pattern by pattern, to
  the `Re` syntax below and run by a backtracking matcher `reM` that follows
  Python `re`'s leftmost / preference-order semantics (greedy and lazy
  quantifiers, alternation priority, lookahead, MULTILINE / DOTALL /
  IGNORECASE behaviour as used by the source's patterns).
* Python statements that can raise (`x[k] = v` on a non-dict, `.append` /
  `.extend` on a non-list, …) return `Except PyErr`.
-/

namespace LlmProc

/-- Python whitespace, the character class of `str.strip` and of the regex
class `\s` on the ASCII range the processor's inputs use: space (32), tab
(9), newline (10), vertical tab (11), form feed (12), carriage return (13),
i.e. code point 32 or one of 9–13. -/
def isPySpace (c : Char) : Bool :=
  c.toNat == 32 || (9 ≤ c.toNat && c.toNat ≤ 13)

/-- `str.strip()` on a character list: drop Python whitespace at both ends. -/
def stripChars (s : List Char) : List Char :=
  ((s.dropWhile isPySpace).reverse.dropWhile isPySpace).reverse

/-- Python `content.strip()`. -/
def pyStrip (s : String) : String :=
  String.mk (stripChars s.data)

/-- Python substring test `needle in hay`. -/
def strContains (needle : List Char) : List Char → Bool
  | [] => needle.isPrefixOf []
  | c :: t => needle.isPrefixOf (c :: t) || strContains needle t

/-- Python `len` on a string (count of code points). -/
def pyLen (s : String) : Nat := s.data.length

/-- Python slicing `s[:n]` (by code points). -/
def pyTake (s : String) (n : Nat) : String := String.mk (s.data.take n)

/-- Python `str.lower()`. -/
def pyLower (s : String) : String := String.mk (s.data.map Char.toLower)

/-- Python `s.replace(' ', '_')`. -/
def underscoreSpaces (s : String) : String :=
  String.mk (s.data.map (fun c => if c == ' ' then '_' else c))

/-- Worker for `pySplitNl`. -/
def splitNlGo : List Char → List Char → List String
  | [], acc => [String.mk acc.reverse]
  | c :: t, acc =>
    if c == '\n' then String.mk acc.reverse :: splitNlGo t []
    else splitNlGo t (c :: acc)

/-- Python `content.split('\n')`. -/
def pySplitNl (s : String) : List String := splitNlGo s.data []

/-- Python `'\n'.join(parts)`. -/
def joinNl : List String → String
  | [] => ""
  | [x] => x
  | x :: xs => x ++ "\n" ++ joinNl xs

/-- The character `{` (written via its code point to keep string/char
literals free of braces). -/
def lbrace : Char := Char.ofNat 123

/-- The character `}`. -/
def rbrace : Char := Char.ofNat 125

/-- JSON-like Python values: the result type of `json.loads` and the element
type of the loosely-typed dicts the processor builds.  Numbers are kept as
their source lexeme (the processor never computes with them). -/
inductive JVal where
  | jnull
  | jbool (b : Bool)
  | jnum (lexeme : String)
  | jstr (s : String)
  | jarr (items : List JVal)
  | jobj (fields : List (String × JVal))
deriving Repr, Inhabited

/-- Python `d[k] = v` on an insertion-ordered dict: an existing key keeps its
position and gets the new value, a new key is appended. -/
def dictSet (fs : List (String × JVal)) (k : String) (v : JVal) :
    List (String × JVal) :=
  if fs.any (fun kv => kv.1 == k) then
    fs.map (fun kv => if kv.1 == k then (k, v) else kv)
  else fs ++ [(k, v)]

/-- Python `d.get(k)` / `d[k]` lookup. -/
def dictGet? (fs : List (String × JVal)) (k : String) : Option JVal :=
  (fs.find? (fun kv => kv.1 == k)).map (fun kv => kv.2)

/-- Python `k in d`. -/
def dictHasKey (fs : List (String × JVal)) (k : String) : Bool :=
  fs.any (fun kv => kv.1 == k)

/-- Python `d.update(other)`: set every key of `other`, in order. -/
def dictUpdate (fs other : List (String × JVal)) : List (String × JVal) :=
  other.foldl (fun acc kv => dictSet acc kv.1 kv.2) fs

/-- Key-presence test on a `JVal`; false on non-dicts. -/
def hasKeyJ : JVal → String → Bool
  | .jobj fs, k => dictHasKey fs k
  | _, _ => false

/-- The whitespace `json.loads` skips between tokens. -/
def isJsonWs (c : Char) : Bool :=
  c == ' ' || c == '\t' || c == '\n' || c == '\r'

/-- Skip JSON whitespace. -/
def skipWs (s : List Char) : List Char := s.dropWhile isJsonWs

/-- Value of one hexadecimal digit, for `\uXXXX` escapes: code points 48–57
are the decimal digits, 97–102 the lowercase letters a–f (value 10–15, so
offset 87), 65–70 the uppercase ones (offset 55). -/
def hexDigitVal (c : Char) : Option Nat :=
  let n := c.toNat
  if 48 ≤ n && n ≤ 57 then some (n - 48)
  else if 97 ≤ n && n ≤ 102 then some (n - 87)
  else if 65 ≤ n && n ≤ 70 then some (n - 55)
  else none

/-- Body of a JSON string literal after the opening quote: returns the decoded
content and the characters after the closing quote.  Strict mode: raw control
characters are rejected, as are unknown escapes. -/
def jsonStringBody : Nat → List Char → Option (List Char × List Char)
  | 0, _ => none
  | _, [] => none
  | fuel + 1, c :: t =>
    if c == '"' then some ([], t)
    else if c == '\\' then
      match t with
      | [] => none
      | e :: t2 =>
        let esc : Option (Char × List Char) :=
          if e == '"' then some ('"', t2)
          else if e == '\\' then some ('\\', t2)
          else if e == '/' then some ('/', t2)
          else if e == 'b' then some ('\x08', t2)
          else if e == 'f' then some ('\x0c', t2)
          else if e == 'n' then some ('\n', t2)
          else if e == 'r' then some ('\r', t2)
          else if e == 't' then some ('\t', t2)
          else if e == 'u' then
            match t2 with
            | h1 :: h2 :: h3 :: h4 :: t3 =>
              match hexDigitVal h1, hexDigitVal h2, hexDigitVal h3,
                  hexDigitVal h4 with
              | some a, some b, some x, some d =>
                some (Char.ofNat (((a * 16 + b) * 16 + x) * 16 + d), t3)
              | _, _, _, _ => none
            | _ => none
          else none
        match esc with
        | some (ch, rest) =>
          (jsonStringBody fuel rest).map (fun p => (ch :: p.1, p.2))
        | none => none
    else if c.toNat < 32 then none
    else (jsonStringBody fuel t).map (fun p => (c :: p.1, p.2))

/-- A JSON number per `json.loads`'s grammar `-?(0|[1-9]\d*)(\.\d+)?([eE][+-]?\d+)?`,
plus the `Infinity` / `-Infinity` specials Python accepts by default.
Returns the lexeme and the rest of the input. -/
def jsonNum (s : List Char) : Option (JVal × List Char) :=
  let core : List Char → Option (List Char × List Char) := fun s1 =>
    match s1 with
    | 'I' :: t =>
      if "nfinity".data.isPrefixOf t then some ("Infinity".data, t.drop 7) else none
    | '0' :: t => some (['0'], t)
    | c :: t =>
      if c.isDigit then
        let ds := t.takeWhile Char.isDigit
        some (c :: ds, t.drop ds.length)
      else none
    | [] => none
  let frac : List Char → Option (List Char × List Char) := fun s1 =>
    match s1 with
    | '.' :: t =>
      let ds := t.takeWhile Char.isDigit
      if ds.isEmpty then none else some ('.' :: ds, t.drop ds.length)
    | _ => none
  let expo : List Char → Option (List Char × List Char) := fun s1 =>
    match s1 with
    | e :: t =>
      if e == 'e' || e == 'E' then
        let (sgn, t2) :=
          match t with
          | '+' :: t2 => (['+'], t2)
          | '-' :: t2 => (['-'], t2)
          | _ => (([] : List Char), t)
        let ds := t2.takeWhile Char.isDigit
        if ds.isEmpty then none else some (e :: sgn ++ ds, t2.drop ds.length)
      else none
    | _ => none
  let (neg, s1) :=
    match s with
    | '-' :: t => (['-'], t)
    | _ => (([] : List Char), s)
  match core s1 with
  | none => none
  | some (ip, r1) =>
    let (fp, r2) := (frac r1).getD ([], r1)
    let (ep, r3) := (expo r2).getD ([], r2)
    some (.jnum (String.mk (neg ++ ip ++ fp ++ ep)), r3)

mutual

/-- One JSON value (with surrounding whitespace skipped on the left),
following `json.loads`. -/
def jsonVal : Nat → List Char → Option (JVal × List Char)
  | 0, _ => none
  | fuel + 1, s =>
    match skipWs s with
    | [] => none
    | c :: t =>
      if c == '"' then
        (jsonStringBody (t.length + 1) t).map
          (fun p => (JVal.jstr (String.mk p.1), p.2))
      else if c == lbrace then jsonObjFields fuel t []
      else if c == '[' then jsonArrItems fuel t []
      else if c == 't' then
        if "rue".data.isPrefixOf t then some (.jbool true, t.drop 3) else none
      else if c == 'f' then
        if "alse".data.isPrefixOf t then some (.jbool false, t.drop 4) else none
      else if c == 'n' then
        if "ull".data.isPrefixOf t then some (.jnull, t.drop 3) else none
      else if c == 'N' then
        if "aN".data.isPrefixOf t then some (.jnum "NaN", t.drop 2) else none
      else jsonNum (c :: t)

/-- Fields of a JSON object after the opening brace.  Duplicate keys follow
Python dict semantics (`dictSet`): last value wins, first position kept. -/
def jsonObjFields (fuel : Nat) (s : List Char) (acc : List (String × JVal)) :
    Option (JVal × List Char) :=
  match fuel with
  | 0 => none
  | fuel + 1 =>
    match skipWs s with
    | [] => none
    | c :: t =>
      if c == rbrace && acc.isEmpty then some (.jobj [], t)
      else
        match (if c == '"' then jsonStringBody (t.length + 1) t else none) with
        | none => none
        | some (key, r1) =>
          match skipWs r1 with
          | ':' :: r2 =>
            match jsonVal fuel r2 with
            | none => none
            | some (v, r3) =>
              let acc2 := dictSet acc (String.mk key) v
              match skipWs r3 with
              | ',' :: r4 => jsonObjFields fuel r4 acc2
              | d :: r4 => if d == rbrace then some (.jobj acc2, r4) else none
              | [] => none
          | _ => none

/-- Items of a JSON array after the opening bracket. -/
def jsonArrItems (fuel : Nat) (s : List Char) (acc : List JVal) :
    Option (JVal × List Char) :=
  match fuel with
  | 0 => none
  | fuel + 1 =>
    match skipWs s with
    | [] => none
    | c :: t =>
      if c == ']' && acc.isEmpty then some (.jarr [], t)
      else
        match jsonVal fuel s with
        | none => none
        | some (v, r1) =>
          let acc2 := acc ++ [v]
          match skipWs r1 with
          | ',' :: r2 => jsonArrItems fuel r2 acc2
          | ']' :: r2 => some (.jarr acc2, r2)
          | _ => none

end

/-- Model of Python `json.loads`: parse one JSON document, allowing
surrounding whitespace, rejecting trailing data. -/
def jsonParse (s : String) : Option JVal :=
  match jsonVal (4 * s.data.length + 8) s.data with
  | some (v, rest) => if (skipWs rest).isEmpty then some v else none
  | none => none

/-- Abstract syntax for the regular expressions the processor uses.  Flags
(`MULTILINE`, `DOTALL`, `IGNORECASE`) are baked in when a pattern is
compiled to this syntax. -/
inductive Re where
  | eps
  | cls (p : Char → Bool)
  | rseq (a b : Re)
  | ralt (a b : Re)
  | rstar (a : Re) (lazy : Bool)
  | ropt (a : Re) (lazy : Bool)
  | grp (i : Nat) (a : Re)
  | look (neg : Bool) (a : Re)
  | bol (multi : Bool)
  | eol (multi : Bool)
  | eos
  | wb

/-- Character class `\w`: an underscore or an alphanumeric character. -/
def isWordCh (c : Char) : Bool := c == '_' || c.isAlphanum

/-- Word test on an optional neighbouring character (for `\b`). -/
def optIsWord : Option Char → Bool
  | some c => isWordCh c
  | none => false

/-- Capture store: group index to captured characters; the head entry for an
index is its most recent capture, as in Python. -/
abbrev Caps := List (Nat × List Char)

/-- Captured text of a group, Python `findall`'s empty-string default for a
group that did not participate. -/
def capsGet (caps : Caps) (i : Nat) : List Char :=
  match caps.find? (fun p => p.1 == i) with
  | some p => p.2
  | none => []

/-- Backtracking matcher in continuation-passing style, following Python
`re`'s preference order: alternation tries the left branch first, greedy
quantifiers try consuming first, lazy quantifiers try the continuation
first, so the first answer found is the one Python reports.  `prev` is the
character before the current position (for `^`, `\b`), `pos` the offset from
the start of this match attempt, `s` the remaining input.  A starred body
must consume input for its iteration to count, as in Python.  The `fuel`
argument only forces termination and is chosen large enough to be
irrelevant on the inputs considered. -/
def reM (fuel : Nat) (r : Re) (prev : Option Char) (pos : Nat) (s : List Char)
    (caps : Caps)
    (k : Option Char → Nat → List Char → Caps → Option (Nat × Caps)) :
    Option (Nat × Caps) :=
  match fuel with
  | 0 => none
  | fuel + 1 =>
    match r with
    | .eps => k prev pos s caps
    | .cls p =>
      match s with
      | [] => none
      | c :: t => if p c then k (some c) (pos + 1) t caps else none
    | .rseq a b =>
      reM fuel a prev pos s caps (fun pr po st cp => reM fuel b pr po st cp k)
    | .ralt a b =>
      match reM fuel a prev pos s caps k with
      | some res => some res
      | none => reM fuel b prev pos s caps k
    | .ropt a lazy =>
      if lazy then
        match k prev pos s caps with
        | some res => some res
        | none => reM fuel a prev pos s caps k
      else
        match reM fuel a prev pos s caps k with
        | some res => some res
        | none => k prev pos s caps
    | .rstar a lazy =>
      if lazy then
        match k prev pos s caps with
        | some res => some res
        | none =>
          reM fuel a prev pos s caps (fun pr2 po2 st2 cp2 =>
            if pos < po2 then reM fuel (.rstar a lazy) pr2 po2 st2 cp2 k
            else none)
      else
        match reM fuel a prev pos s caps (fun pr2 po2 st2 cp2 =>
            if pos < po2 then reM fuel (.rstar a lazy) pr2 po2 st2 cp2 k
            else none) with
        | some res => some res
        | none => k prev pos s caps
    | .grp i a =>
      reM fuel a prev pos s caps (fun pr2 po2 st2 cp2 =>
        k pr2 po2 st2 ((i, s.take (po2 - pos)) :: cp2))
    | .look neg a =>
      match reM fuel a prev pos s caps (fun _ po2 _ cp2 => some (po2, cp2)) with
      | some (_, cp2) => if neg then none else k prev pos s cp2
      | none => if neg then k prev pos s caps else none
    | .bol multi =>
      if prev.isNone || (multi && prev == some '\n') then k prev pos s caps
      else none
    | .eol multi =>
      if (multi && (s.isEmpty || s.head? == some '\n'))
          || (!multi && (s.isEmpty || s == ['\n'])) then k prev pos s caps
      else none
    | .eos => if s.isEmpty then k prev pos s caps else none
    | .wb =>
      if optIsWord prev != optIsWord s.head? then k prev pos s caps else none

/-- Fuel bound for one match attempt; far beyond what the concrete inputs in
this development can consume. -/
def reFuel : Nat := 1000000

/-- Anchored match attempt at the current position (Python `re.match` at that
position): returns the length matched and the captures. -/
def reTry (r : Re) (prev : Option Char) (s : List Char) : Option (Nat × Caps) :=
  reM reFuel r prev 0 s [] (fun _ po _ cp => some (po, cp))

/-- Leftmost match, Python `re.search`: try each start position in order.
Returns the characters before the match, the matched characters (group 0),
the rest, and the captures. -/
def reSearchFrom (r : Re) : Option Char → List Char →
    Option (List Char × List Char × List Char × Caps)
  | prev, s =>
    match reTry r prev s with
    | some (n, cp) => some ([], s.take n, s.drop n, cp)
    | none =>
      match s with
      | [] => none
      | c :: t =>
        match reSearchFrom r (some c) t with
        | some (pre, q) => some (c :: pre, q)
        | none => none

/-- Python `re.search` on a string. -/
def reSearch (r : Re) (s : String) :
    Option (List Char × List Char × List Char × Caps) :=
  reSearchFrom r none s.data

/-- `m.group(1)` of a `re.search`, when it matched. -/
def searchGroup1 (r : Re) (s : String) : Option String :=
  (reSearch r s).map (fun q => String.mk (capsGet q.2.2.2 1))

/-- `(m.group(1), m.group(2))` of a `re.search`, when it matched. -/
def searchGroup2 (r : Re) (s : String) : Option (String × String) :=
  (reSearch r s).map
    (fun q => (String.mk (capsGet q.2.2.2 1), String.mk (capsGet q.2.2.2 2)))

/-- Iterated scanning, Python `re.finditer` / `re.findall`: repeated leftmost
search, resuming after each match, advancing one character after an empty
match. -/
def reFindIter (r : Re) : Nat → Option Char → List Char → List (List Char × Caps)
  | 0, _, _ => []
  | fuel + 1, prev, s =>
    match reSearchFrom r prev s with
    | none => []
    | some (_pre, m, rest, cp) =>
      match m.getLast? with
      | some c => (m, cp) :: reFindIter r fuel (some c) rest
      | none =>
        (m, cp) ::
          (match rest with
           | [] => []
           | c :: t => reFindIter r fuel (some c) t)

/-- `re.finditer`, keeping `group(0)` of each match. -/
def reFinditer0 (r : Re) (s : String) : List String :=
  (reFindIter r (s.data.length + 1) none s.data).map (fun p => String.mk p.1)

/-- `re.findall` for a pattern with one capture group. -/
def reFindall1 (r : Re) (s : String) : List String :=
  (reFindIter r (s.data.length + 1) none s.data).map
    (fun p => String.mk (capsGet p.2 1))

/-- `re.findall` for a pattern with two capture groups. -/
def reFindall2 (r : Re) (s : String) : List (String × String) :=
  (reFindIter r (s.data.length + 1) none s.data).map
    (fun p => (String.mk (capsGet p.2 1), String.mk (capsGet p.2 2)))

/-- Python `re.split` for a groupless pattern: pieces between matches; a
zero-width match splits and the scan advances one character. -/
def reSplitGo (r : Re) : Nat → Option Char → List Char → List Char → List String
  | 0, _, acc, s => [String.mk (acc ++ s)]
  | fuel + 1, prev, acc, s =>
    match reSearchFrom r prev s with
    | none => [String.mk (acc ++ s)]
    | some (pre, m, rest, _) =>
      match m.getLast? with
      | some c => String.mk (acc ++ pre) :: reSplitGo r fuel (some c) [] rest
      | none =>
        match rest with
        | [] => [String.mk (acc ++ pre), ""]
        | c :: t => String.mk (acc ++ pre) :: reSplitGo r fuel (some c) [c] t

/-- Python `re.split`. -/
def reSplit (r : Re) (s : String) : List String :=
  reSplitGo r (s.data.length + 1) none [] s.data

/-- Python `re.match` for a two-group pattern (anchored at the start, not
required to reach the end). -/
def reMatch2 (r : Re) (s : String) : Option (String × String) :=
  (reTry r none s.data).map
    (fun p => (String.mk (capsGet p.2 1), String.mk (capsGet p.2 2)))

/-- Single-character pattern. -/
def chr (c : Char) : Re := .cls (fun x => x == c)

/-- Single character, `IGNORECASE`. -/
def chrI (c : Char) : Re := .cls (fun x => x.toLower == c.toLower)

/-- Literal word. -/
def rlit (w : String) : Re := w.data.foldr (fun c r => .rseq (chr c) r) .eps

/-- Literal word, `IGNORECASE`. -/
def rlitI (w : String) : Re := w.data.foldr (fun c r => .rseq (chrI c) r) .eps

/-- `.` under `DOTALL`. -/
def dotAll : Re := .cls (fun _ => true)

/-- `.` without `DOTALL`: anything but a newline. -/
def dotNN : Re := .cls (fun c => c != '\n')

/-- `\d`. -/
def digitC : Re := .cls Char.isDigit

/-- `\w`. -/
def wordC : Re := .cls isWordCh

/-- `\s`. -/
def spaceC : Re := .cls isPySpace

/-- The class `["\']`. -/
def quoteC : Re := .cls (fun c => c == '"' || c == '\'')

/-- Greedy star. -/
def starG (a : Re) : Re := .rstar a false

/-- Lazy star. -/
def starL (a : Re) : Re := .rstar a true

/-- Greedy plus. -/
def plusG (a : Re) : Re := .rseq a (.rstar a false)

/-- Lazy plus. -/
def plusL (a : Re) : Re := .rseq a (.rstar a true)

/-- Greedy option. -/
def optG (a : Re) : Re := .ropt a false

/-- Chain a list of pieces in sequence. -/
def rcat (rs : List Re) : Re := rs.foldr .rseq .eps

/-! The patterns of `_detect_response_type`. -/

/-- Pattern ```` ```(?:json|patch|diff) ```` (no flags), searched to decide
the "mixed" shape. -/
def fenceTagPat : Re :=
  .rseq (rlit "```") (.ralt (rlit "json") (.ralt (rlit "patch") (rlit "diff")))

/-- Pattern `^#+\s+` with `MULTILINE`, searched to decide the "markdown"
shape. -/
def headingPat : Re :=
  rcat [.bol true, plusG (chr '#'), plusG spaceC]

/-! The patterns of `_parse_json_response` / `_parse_mixed_response`. -/

/-- Pattern ```` ```json\s*\n(.*?)\n``` ```` with `DOTALL`: a fenced json
block, capturing its body. -/
def jsonBlockPat : Re :=
  rcat [rlit "```json", starG spaceC, chr '\n', .grp 1 (starL dotAll),
        chr '\n', rlit "```"]

/-- Pattern ```` ```(?!json)(\w+)?\s*\n(.*?)\n``` ```` with `DOTALL`: a fenced
non-json block, capturing language tag and body. -/
def codeBlockPat : Re :=
  rcat [rlit "```", .look true (rlit "json"), optG (.grp 1 (plusG wordC)),
        starG spaceC, chr '\n', .grp 2 (starL dotAll), chr '\n', rlit "```"]

/-- Pattern `\n#+\s+` (no flags), used by `re.split` to cut markdown
sections. -/
def mdSplitPat : Re :=
  rcat [chr '\n', plusG (chr '#'), plusG spaceC]

/-- Pattern `^\s*(.+?)\s*[:=]\s*(.+?)\s*$` (no flags), used by `re.match`
per line in `_extract_structured_data`. -/
def kvPat : Re :=
  rcat [.bol false, starG spaceC, .grp 1 (plusL dotNN), starG spaceC,
        .cls (fun c => c == ':' || c == '='), starG spaceC,
        .grp 2 (plusL dotNN), starG spaceC, .eol false]

/-! The four patterns of `_extract_changes_from_text`, all compiled with
`IGNORECASE | MULTILINE`. -/

/-- Pattern `File:\s*(.+?)(?:\n|$)`. -/
def chgPat1 : Re :=
  rcat [rlitI "File:", starG spaceC, .grp 1 (plusL dotNN),
        .ralt (chr '\n') (.eol true)]

/-- Pattern `File\s*[#:]?\s*(.+?)(?:\n|$)`. -/
def chgPat2 : Re :=
  rcat [rlitI "File", starG spaceC, .ropt (.cls (fun c => c == '#' || c == ':')) false,
        starG spaceC, .grp 1 (plusL dotNN), .ralt (chr '\n') (.eol true)]

/-- Extension alternation `(?:py|js|ts|java|cpp|c|h|go|rs|php|rb|sh|md|txt|json|yaml|yml)`,
in source order, `IGNORECASE`. -/
def extAlt : Re :=
  [rlitI "js", rlitI "ts", rlitI "java", rlitI "cpp", rlitI "c", rlitI "h",
   rlitI "go", rlitI "rs", rlitI "php", rlitI "rb", rlitI "sh", rlitI "md",
   rlitI "txt", rlitI "json", rlitI "yaml", rlitI "yml"].foldl .ralt (rlitI "py")

/-- Pattern `^(?:-|\*|\d+\.)\s*(.+?\.(?:py|js|…|yml))`. -/
def chgPat3 : Re :=
  rcat [.bol true, .ralt (chr '-') (.ralt (chr '*') (.rseq (plusG digitC) (chr '.'))),
        starG spaceC, .grp 1 (rcat [plusL dotNN, chr '.', extAlt])]

/-- Pattern `\b(?:modif|chang|updat|add|remov|delet).*?\s+file\s+["\']?(.+?)["\']?(?:\s|$|\.)`. -/
def chgPat4 : Re :=
  rcat [.wb,
        [rlitI "chang", rlitI "updat", rlitI "add", rlitI "remov",
         rlitI "delet"].foldl .ralt (rlitI "modif"),
        starL dotNN, plusG spaceC, rlitI "file", plusG spaceC, optG quoteC,
        .grp 1 (plusL dotNN), optG quoteC,
        .ralt spaceC (.ralt (.eol true) (chr '.'))]

/-! The patterns of `_extract_patches`, the three diff families compiled with
`DOTALL | MULTILINE`, the header search with no flags, the replace pattern
with `MULTILINE`. -/

/-- Pattern ```` ```(?:patch|diff)\s*\n(.*?)\n``` ````. -/
def diffPat1 : Re :=
  rcat [rlit "```", .ralt (rlit "patch") (rlit "diff"), starG spaceC,
        chr '\n', .grp 1 (starL dotAll), chr '\n', rlit "```"]

/-- Pattern ```` ^--- a/(.+?)\n\+\+\+ b/(.+?)(?:\n@@.*?(?:\n.*?)*?)(?=\n---|\n```|\Z) ````. -/
def diffPat2 : Re :=
  rcat [.bol true, rlit "--- a/", .grp 1 (plusL dotAll), chr '\n',
        rlit "+++ b/", .grp 2 (plusL dotAll),
        rcat [chr '\n', rlit "@@", starL dotAll,
              starL (.rseq (chr '\n') (starL dotAll))],
        .look false (.ralt (rlit "\n---") (.ralt (rlit "\n```") .eos))]

/-- Pattern ```` @@ -\d+,\d+ \+\d+,\d+ @@\n(?:.*?\n)*?(?=\n@@|\n---|\n```|\Z) ````. -/
def diffPat3 : Re :=
  rcat [rlit "@@ -", plusG digitC, chr ',', plusG digitC, rlit " +",
        plusG digitC, chr ',', plusG digitC, rlit " @@", chr '\n',
        starL (.rseq (starL dotAll) (chr '\n')),
        .look false (.ralt (rlit "\n@@")
          (.ralt (rlit "\n---") (.ralt (rlit "\n```") .eos)))]

/-- Pattern `--- a/(.+?)\n\+\+\+ b/(.+?)\n` (no flags), searched inside an
extracted patch to find its file name. -/
def fileHeaderPat : Re :=
  rcat [rlit "--- a/", .grp 1 (plusL dotNN), chr '\n', rlit "+++ b/",
        .grp 2 (plusL dotNN), chr '\n']

/-- Pattern `Replace:\s*["\']?(.+?)["\']?\s*→\s*["\']?(.+?)["\']?(?:\s|$)`
with `MULTILINE`. -/
def simpleReplacePat : Re :=
  rcat [rlit "Replace:", starG spaceC, optG quoteC, .grp 1 (plusL dotNN),
        optG quoteC, starG spaceC, chr '→', starG spaceC, optG quoteC,
        .grp 2 (plusL dotNN), optG quoteC, .ralt spaceC (.eol true)]

/-! The four patterns of `_extract_commit_messages`, all compiled with
`MULTILINE | IGNORECASE`. -/

/-- Pattern `Commit(?: Message)?:\s*(.+?)(?:\n|$)`. -/
def cmtPat1 : Re :=
  rcat [rlitI "Commit", optG (rlitI " Message"), chr ':', starG spaceC,
        .grp 1 (plusL dotNN), .ralt (chr '\n') (.eol true)]

/-- Pattern `` ^`(.+?)`\s*$ ``. -/
def cmtPat2 : Re :=
  rcat [.bol true, rlit "`", .grp 1 (plusL dotNN), rlit "`", starG spaceC,
        .eol true]

/-- Pattern `feat(?:ure)?:\s*(.+?)(?:\n|$)`. -/
def cmtPat3 : Re :=
  rcat [rlitI "feat", optG (rlitI "ure"), chr ':', starG spaceC,
        .grp 1 (plusL dotNN), .ralt (chr '\n') (.eol true)]

/-- Pattern `^(?:-|\*|\d+\.)\s*(.+?)(?:\n|$)`. -/
def cmtPat4 : Re :=
  rcat [.bol true, .ralt (chr '-') (.ralt (chr '*') (.rseq (plusG digitC) (chr '.'))),
        starG spaceC, .grp 1 (plusL dotNN), .ralt (chr '\n') (.eol true)]

/-! The processor itself. -/

/-- Exceptions the embedded statements can raise. -/
inductive PyErr where
  | typeError
  | attributeError
deriving Repr, DecidableEq

/-- The dict literal appended for one heuristic change, in source key order. -/
def changeJ (path : String) : JVal :=
  .jobj [("file_path", .jstr path), ("change_type", .jstr "modify"),
         ("description", .jstr ("Change detected in " ++ path)),
         ("source", .jstr "text_extraction")]

/-- `LLMResponseProcessor._extract_changes_from_text`: run the four file
patterns in order over the text; keep a match whose text is non-blank and
contains a `.`; record it stripped. -/
def extractChangesFromText (text : String) : List JVal :=
  [chgPat1, chgPat2, chgPat3, chgPat4].foldl (fun changes pat =>
    (reFindall1 pat text).foldl (fun changes m =>
      if pyStrip m != "" && strContains ['.'] m.data then
        changes ++ [changeJ (pyStrip m)]
      else changes) changes) []

/-- One extracted patch `{content, file, format}`. -/
structure PatchRec where
  content : String
  file : String
  format : String
deriving Repr, DecidableEq

/-- The file name recorded for a diff-family patch: group 1 of a
`--- a/(.+?)\n\+\+\+ b/(.+?)\n` search inside the extracted text, else
"unknown". -/
def patchFileOf (patchContent : String) : String :=
  match searchGroup1 fileHeaderPat patchContent with
  | some f => f
  | none => "unknown"

/-- One diff pattern family of `_extract_patches`: every `finditer` match
contributes its whole `group(0)` as a unified-diff patch record. -/
def diffFamily (pat : Re) (content : String) : List PatchRec :=
  (reFinditer0 pat content).map
    (fun g0 => ⟨g0, patchFileOf g0, "unified_diff"⟩)

/-- `LLMResponseProcessor._extract_patches`: the three diff families in
order, then the `Replace: "old" → "new"` records. -/
def extractPatches (content : String) : List PatchRec :=
  diffFamily diffPat1 content ++ diffFamily diffPat2 content ++
    diffFamily diffPat3 content ++
    (reFindall2 simpleReplacePat content).map
      (fun p => ⟨"-" ++ p.1 ++ "\n+" ++ p.2, "unknown", "simple_replace"⟩)

/-- The dict a `PatchRec` denotes in the assembled record. -/
def patchToJ (p : PatchRec) : JVal :=
  .jobj [("content", .jstr p.content), ("file", .jstr p.file),
         ("format", .jstr p.format)]

/-- Worker for `dedupFirst`, carrying the set of strings already seen. -/
def dedupFirstGo : List String → List String → List String
  | [], _ => []
  | x :: xs, seen =>
    if seen.contains x then dedupFirstGo xs seen
    else x :: dedupFirstGo xs (x :: seen)

/-- Python `list(dict.fromkeys(l))`: deduplicate, keeping each string's first
occurrence in place. -/
def dedupFirst (l : List String) : List String := dedupFirstGo l []

/-- The raw candidate list of `_extract_commit_messages`: for each of the
four commit patterns in order, the stripped captures longer than 10
characters, concatenated. -/
def commitCandidates (content : String) : List String :=
  [cmtPat1, cmtPat2, cmtPat3, cmtPat4].foldl (fun msgs pat =>
    msgs ++ ((reFindall1 pat content).map pyStrip).filter
      (fun m => pyLen m > 10)) []

/-- `LLMResponseProcessor._extract_commit_messages`: candidates,
deduplicated order-preservingly, truncated to 5. -/
def extractCommitMessages (content : String) : List String :=
  (dedupFirst (commitCandidates content)).take 5

/-- `LLMResponseProcessor._parse_text_response`. -/
def parseTextResponse (content : String) : JVal :=
  .jobj [("raw_content", .jstr content),
         ("changes", .jarr (extractChangesFromText content)),
         ("summary", .jstr (if pyLen content > 500 then
            pyTake content 500 ++ "..." else content))]

/-- `LLMResponseProcessor._parse_markdown_response`: split on `\n#+\s+`;
for each non-blank section, the first line (stripped) is the title, the rest
(stripped) the body; dispatch on keywords in the lowercased title.  The
`details` entry is the dict created at initialisation, so the fallback
branch's lookup always finds a dict. -/
def parseMarkdownResponse (content : String) : JVal :=
  .jobj ((reSplit mdSplitPat content).foldl (fun fs sec =>
    if pyStrip sec == "" then fs
    else
      let lines := pySplitNl sec
      let title := pyStrip (lines.headD "")
      let body := pyStrip (joinNl lines.tail)
      if title == "" then fs
      else
        let tl := pyLower title
        if strContains "change".data tl.data ||
            strContains "modification".data tl.data then
          dictSet fs "changes" (.jarr (extractChangesFromText body))
        else if strContains "summary".data tl.data ||
            strContains "overview".data tl.data then
          dictSet fs "summary" (.jstr body)
        else if strContains "implementation".data tl.data ||
            strContains "plan".data tl.data then
          dictSet fs "implementation_plan" (.jstr body)
        else
          match dictGet? fs "details" with
          | some (.jobj dfs) =>
            dictSet fs "details" (.jobj (dictSet dfs title (.jstr body)))
          | _ => fs)
    [("changes", .jarr []), ("summary", .jstr ""), ("details", .jobj [])])

/-- `LLMResponseProcessor._extract_structured_data`: best-effort key/value
scan over the lines; keys are stripped, lowercased, space-to-underscore;
bracketed values are parsed as JSON when possible. -/
def extractStructuredData (content : String) : JVal :=
  .jobj ((pySplitNl content).foldl (fun fs line =>
    match reMatch2 kvPat line with
    | none => fs
    | some (k, v) =>
      let key := underscoreSpaces (pyLower (pyStrip k))
      let vs := pyStrip v
      let value : JVal :=
        if vs.data.head? == some '[' || vs.data.head? == some lbrace then
          match jsonParse vs with
          | some j => j
          | none => .jstr vs
        else .jstr vs
      dictSet fs key value) [])

/-- `LLMResponseProcessor._parse_json_response`: direct parse, then a fenced
```json block, then the key/value fallback. -/
def parseJsonResponse (content : String) : JVal :=
  match jsonParse content with
  | some v => v
  | none =>
    match searchGroup1 jsonBlockPat content with
    | some inner =>
      match jsonParse inner with
      | some v => v
      | none => extractStructuredData content
    | none => extractStructuredData content

/-- Python iteration, as consumed by `list.extend`: lists yield their items,
strings their characters, dicts their keys; other values raise `TypeError`. -/
def pyIter : JVal → Option (List JVal)
  | .jarr xs => some xs
  | .jstr s => some (s.data.map (fun c => .jstr (String.mk [c])))
  | .jobj fs => some (fs.map (fun kv => JVal.jstr kv.1))
  | _ => none

/-- One fenced json block in `_parse_mixed_response`: the whole loop body
runs in `try: … except: pass`, so every failure (unparsable JSON, `extend`
on a value that is no longer a list, non-iterable `changes`) leaves the
record unchanged. -/
def applyJsonBlock (fs : List (String × JVal)) (block : String) :
    List (String × JVal) :=
  match jsonParse block with
  | none => fs
  | some (.jarr xs) =>
    match dictGet? fs "changes" with
    | some (.jarr cs) => dictSet fs "changes" (.jarr (cs ++ xs))
    | _ => fs
  | some (.jobj dfs) =>
    if dictHasKey dfs "changes" then
      match dictGet? fs "changes", dictGet? dfs "changes" with
      | some (.jarr cs), some v =>
        match pyIter v with
        | some items => dictSet fs "changes" (.jarr (cs ++ items))
        | none => fs
      | _, _ => fs
    else dictUpdate fs dfs
  | some _ => fs

/-- `LLMResponseProcessor._parse_mixed_response`.  The json-block loop never
raises; the code-block loop and the section loop run outside any handler, so
they raise (`AttributeError` on `.append`, `TypeError` on item assignment)
when a merged JSON object replaced `code_blocks` or `sections` with a value
of the wrong type. -/
def parseMixedResponse (content : String) : Except PyErr JVal := do
  let init : List (String × JVal) :=
    [("changes", .jarr []), ("code_blocks", .jarr []), ("sections", .jobj [])]
  let fs := (reFindall1 jsonBlockPat content).foldl applyJsonBlock init
  let fs ← (reFindall2 codeBlockPat content).foldlM
    (fun fs (lc : String × String) =>
      match dictGet? fs "code_blocks" with
      | some (.jarr xs) =>
        pure (dictSet fs "code_blocks" (.jarr (xs ++
          [.jobj [("language", .jstr (if lc.1 == "" then "text" else lc.1)),
                  ("content", .jstr lc.2)]])))
      | _ => throw PyErr.attributeError) fs
  let fs ← (reSplit mdSplitPat content).foldlM
    (fun fs sec =>
      if pyStrip sec == "" then pure fs
      else
        let lines := pySplitNl sec
        let title := pyStrip (lines.headD "")
        let body := pyStrip (joinNl lines.tail)
        if title != "" && body != "" then
          match dictGet? fs "sections" with
          | some (.jobj sfs) =>
            pure (dictSet fs "sections" (.jobj (dictSet sfs title (.jstr body))))
          | _ => throw PyErr.typeError
        else pure fs) fs
  return .jobj fs

/-- `LLMResponseProcessor._detect_response_type`: JSON-looking and parseable,
else YAML delimiter early and loadable, else a fenced json/patch/diff tag,
else a markdown heading, else plain text.  `yamlOk` models whether
`yaml.safe_load(content)` returns without raising. -/
def detectResponseType (yamlOk : String → Bool) (content : String) : String :=
  let st := stripChars content.data
  if (st.head? == some lbrace || st.head? == some '[') &&
      (jsonParse content).isSome then "json"
  else if strContains "---".data (content.data.take 100) && yamlOk content then
    "yaml"
  else if (reSearch fenceTagPat content).isSome then "mixed"
  else if (reSearch headingPat content).isSome then "markdown"
  else "text"

/-- The parser table built in `__init__` (keys `json`, `markdown`, `text`,
`mixed` — there is no `yaml` entry), looked up via
`self.parsers.get(response_type, self._parse_text_response)`. -/
def parsersGet (tag : String) : String → Except PyErr JVal :=
  if tag == "json" then fun c => .ok (parseJsonResponse c)
  else if tag == "markdown" then fun c => .ok (parseMarkdownResponse c)
  else if tag == "text" then fun c => .ok (parseTextResponse c)
  else if tag == "mixed" then parseMixedResponse
  else fun c => .ok (parseTextResponse c)

/-- Python `x[k] = v` where `x` is meant to be a dict; on a list or any other
non-dict a string index raises `TypeError`. -/
def setItemJ (x : JVal) (k : String) (v : JVal) : Except PyErr JVal :=
  match x with
  | .jobj fs => .ok (.jobj (dictSet fs k v))
  | _ => .error PyErr.typeError

/-- `LLMResponseProcessor.parse_response`, after the file read: `content` is
the decoded text, `responseFile` the path recorded in metadata, `nowIso`
stands for `datetime.now().isoformat()`. -/
def parseResponse (yamlOk : String → Bool)
    (responseFile nowIso content : String) : Except PyErr JVal := do
  let responseType := detectResponseType yamlOk content
  let parsedData ← parsersGet responseType content
  let parsedData ← setItemJ parsedData "patches"
    (.jarr ((extractPatches content).map patchToJ))
  let parsedData ← setItemJ parsedData "commits"
    (.jarr ((extractCommitMessages content).map JVal.jstr))
  let parsedData ← setItemJ parsedData "metadata"
    (.jobj [("response_file", .jstr responseFile),
            ("response_type", .jstr responseType),
            ("parsed_at", .jstr nowIso),
            ("content_length", .jnum (toString (pyLen content)))])
  return parsedData

/-! Definitions taken from the specification's wording, for comparison with
the code-side definitions above. -/

/-- Classifier condition (3) as claim C5 words it, "a fenced code block
tagged `json`, `patch`, or `diff`": the fence's tag itself must be one of
the three words, i.e. ```` ```(?:json|patch|diff) ```` not continued by a
further word character. -/
def exactTagFencePat : Re :=
  .rseq (rlit "```")
    (.rseq (.ralt (rlit "json") (.ralt (rlit "patch") (rlit "diff")))
      (.look true wordC))

/-- The format classifier exactly as claim C5 states it: identical decision
order, with condition (3) reading the fence tag exactly. -/
def detectClaim (yamlOk : String → Bool) (content : String) : String :=
  let st := stripChars content.data
  if (st.head? == some lbrace || st.head? == some '[') &&
      (jsonParse content).isSome then "json"
  else if strContains "---".data (content.data.take 100) && yamlOk content then
    "yaml"
  else if (reSearch exactTagFencePat content).isSome then "mixed"
  else if (reSearch headingPat content).isSome then "markdown"
  else "text"

/-- Classifier condition (3) as the code actually behaves, stated without
regular expressions: the text contains three backticks immediately followed
by `json`, `patch` or `diff` — a prefix match on the tag (tags such as
`jsonl` also qualify) with no closing fence required. -/
def hasFenceTagSub (content : String) : Bool :=
  strContains "```json".data content.data ||
    strContains "```patch".data content.data ||
    strContains "```diff".data content.data

/-- The format classifier as claim C5 must be amended: conditions (1), (2),
(4), (5) as claimed, condition (3) replaced by the prefix-match containment
test `hasFenceTagSub`. -/
def detectAmended (yamlOk : String → Bool) (content : String) : String :=
  let st := stripChars content.data
  if (st.head? == some lbrace || st.head? == some '[') &&
      (jsonParse content).isSome then "json"
  else if strContains "---".data (content.data.take 100) && yamlOk content then
    "yaml"
  else if hasFenceTagSub content then "mixed"
  else if (reSearch headingPat content).isSome then "markdown"
  else "text"

/-- The commit-message pipeline exactly as claim C6 words it: the captures
of the four pattern families concatenated in pattern order, keeping only
captured text longer than 10 characters after trimming, deduplicated
preserving first occurrence, truncated to the first 5 entries. -/
def commitMessagesSpec (content : String) : List String :=
  (dedupFirst
    (((reFindall1 cmtPat1 content).map pyStrip).filter (fun m => pyLen m > 10) ++
      (((reFindall1 cmtPat2 content).map pyStrip).filter (fun m => pyLen m > 10) ++
        (((reFindall1 cmtPat3 content).map pyStrip).filter (fun m => pyLen m > 10) ++
          ((reFindall1 cmtPat4 content).map pyStrip).filter
            (fun m => pyLen m > 10))))).take 5

/-- Last character of a literal if it has one, else the surrounding
previous character — what `prev` becomes after matching that literal. -/
def lastO (cs : List Char) (prev : Option Char) : Option Char :=
  match cs.getLast? with
  | some c => some c
  | none => prev

/-- The concrete mixed-shape input of claim C3: a fenced `patch` block with
a valid `--- a/foo.py` / `+++ b/foo.py` header and a fenced `python` block
with arbitrary code. -/
def mixedSampleC3 : String :=
  "```patch\n--- a/foo.py\n+++ b/foo.py\n-old\n+new\n```\n```python\nprint(1)\n```"

/-- The concrete markdown input of claim C8. -/
def markdownSampleC8 : String :=
  "## Changes\n- src/a.py\n## Summary\nAll good here\n## Notes\nBe careful"

/-! Theorems about the claims. -/

/-- Claim C1 (code bug): the spec claims no exception propagates out of
`parse_response` for any decoded input, but on the valid JSON input `[]`
(a top-level array) it raises `TypeError`: `_parse_json_response` returns a
list and the assembler then runs `parsed_data['patches'] = …` with a string
index on that list. -/
theorem parse_response_raises_on_json_array :
    parseResponse (fun _ => false) "resp.txt" "2026-10-12T00:00:00" "[]" =
      .error PyErr.typeError := rfl

/-- Claim C3 (confirmed): on the input with exactly two fenced blocks — one
tagged `patch` carrying a valid `--- a/foo.py` / `+++ b/foo.py` header, one
tagged `python` with arbitrary code — the patch extractor returns exactly
one PatchRecord, with file "foo.py" and format "unified_diff", and the
mixed parser separately places the `python` block into `code_blocks` with
language "python" (the second `code_blocks` entry below). -/
theorem mixed_sample_patch_and_code_blocks :
    (extractPatches mixedSampleC3).length = 1 ∧
    (extractPatches mixedSampleC3).map PatchRec.file = ["foo.py"] ∧
    (extractPatches mixedSampleC3).map PatchRec.format = ["unified_diff"] ∧
    parseMixedResponse mixedSampleC3 = .ok (.jobj
      [("changes", .jarr []),
       ("code_blocks", .jarr
         [.jobj [("language", .jstr "patch"),
                 ("content", .jstr "--- a/foo.py\n+++ b/foo.py\n-old\n+new")],
          .jobj [("language", .jstr "python"),
                 ("content", .jstr "print(1)")]]),
       ("sections", .jobj
         [("```patch", .jstr
            "--- a/foo.py\n+++ b/foo.py\n-old\n+new\n```\n```python\nprint(1)\n```")])]) :=
  ⟨rfl, rfl, rfl, rfl⟩

/-- Claim C4 counterexample: for the fenced block input below, the
extracted PatchRecord's content is the entire regex match including the
fence lines (`match.group(0)`), not the bare block body "hello" the claim
describes. -/
theorem patch_content_keeps_fence_lines :
    extractPatches "```diff\nhello\n```" =
      [⟨"```diff\nhello\n```", "unknown", "unified_diff"⟩] ∧
    ("```diff\nhello\n```" : String) ≠ "hello" := ⟨rfl, by decide⟩

/-- Claim C4 (corrected): every match of the fenced patch/diff pattern
yields a PatchRecord whose content is the whole matched text — fence lines
included — whose file is the a-side path of a `--- a/…\n+++ b/…\n` search
inside that matched text ("unknown" when absent), and whose format is
"unified_diff". -/
theorem fenced_patch_block_record (content g0 : String)
    (h : g0 ∈ reFinditer0 diffPat1 content) :
    PatchRec.mk g0 (patchFileOf g0) "unified_diff" ∈ extractPatches content := by
  unfold extractPatches diffFamily
  exact List.mem_append_left _ (List.mem_append_left _
    (List.mem_append_left _ (List.mem_map_of_mem _ h)))

/-- Witness for `fenced_patch_block_record` at a concrete fenced diff
block. -/
theorem fenced_patch_block_record_witness :
    PatchRec.mk "```diff\nhello\n```" "unknown" "unified_diff" ∈
      extractPatches "```diff\nhello\n```" :=
  fenced_patch_block_record "```diff\nhello\n```" "```diff\nhello\n```"
    (by decide)

/-- Claim C5 counterexample: on a fence tagged `jsonl` the code classifies
"mixed" — its regex `` ```(?:json|patch|diff) `` prefix-matches the tag —
while the claimed decision rule (fenced block tagged exactly json, patch or
diff; else heading; else text) yields "text". -/
theorem detect_tag_prefix_mismatch :
    detectResponseType (fun _ => false) "```jsonl\nx\n```" = "mixed" ∧
    detectClaim (fun _ => false) "```jsonl\nx\n```" = "text" ∧
    ("mixed" : String) ≠ "text" := ⟨rfl, rfl, by decide⟩

/-- Claim C7 (confirmed): for the single-line input
`Replace: "old_value" → "new_value"` the patch extractor returns exactly one
PatchRecord with content "-old_value\n+new_value", file "unknown" and
format "simple_replace". -/
theorem replace_directive_patch :
    extractPatches "Replace: \"old_value\" → \"new_value\"" =
      [⟨"-old_value\n+new_value", "unknown", "simple_replace"⟩] := rfl

/-- Claim C8 (confirmed): for markdown input with `## Changes`,
`## Summary` and `## Notes` headings, the markdown parser sets `summary` to
the Summary body, sets `changes` to the text-heuristic extractor's result
on the Changes body (second conjunct), and stores the Notes body verbatim
under `details["Notes"]`. -/
theorem markdown_sections_dispatch :
    parseMarkdownResponse markdownSampleC8 =
      .jobj [("changes", .jarr [changeJ "src/a.py"]),
             ("summary", .jstr "All good here"),
             ("details", .jobj [("Notes", .jstr "Be careful")])] ∧
    extractChangesFromText "- src/a.py" = [changeJ "src/a.py"] := ⟨rfl, rfl⟩

/-- Claim C9 (confirmed): classification is deterministic — the classifier
is a pure function of the input text (and of the fixed yaml oracle), so
two calls on identical text return the identical tag. -/
theorem detect_deterministic (yamlOk : String → Bool) (c1 c2 : String)
    (h : c1 = c2) :
    detectResponseType yamlOk c1 = detectResponseType yamlOk c2 := by rw [h]

/-- Witness for `detect_deterministic` at a concrete input. -/
theorem detect_deterministic_witness :
    detectResponseType (fun _ => false) "# title\nbody" =
      detectResponseType (fun _ => false) "# title\nbody" :=
  detect_deterministic (fun _ => false) "# title\nbody" "# title\nbody" rfl

/-- Inverting a successful `Except` bind. -/
theorem except_bind_ok {α β : Type} {x : Except PyErr α}
    {f : α → Except PyErr β} {b : β}
    (h : x.bind f = .ok b) : ∃ a, x = .ok a ∧ f a = .ok b := by
  cases x with
  | error e => simp [Except.bind] at h
  | ok a => exact ⟨a, rfl, by simpa [Except.bind] using h⟩

/-- Inverting a successful item assignment: the target was a dict and the
result is that dict with the key set. -/
theorem setItemJ_ok {x : JVal} {k : String} {v r : JVal}
    (h : setItemJ x k v = .ok r) :
    ∃ fs, x = .jobj fs ∧ r = .jobj (dictSet fs k v) := by
  cases x with
  | jobj fs =>
    refine ⟨fs, rfl, ?_⟩
    simpa [setItemJ] using h.symm
  | jnull => simp [setItemJ] at h
  | jbool b => simp [setItemJ] at h
  | jnum n => simp [setItemJ] at h
  | jstr s => simp [setItemJ] at h
  | jarr xs => simp [setItemJ] at h

/-- The in-place update map of `dictSet` preserves presence of any key. -/
theorem dictHasKey_map_set (fs : List (String × JVal)) (k k' : String)
    (v : JVal) (h : dictHasKey fs k' = true) :
    dictHasKey (fs.map (fun kv => if kv.1 == k then (k, v) else kv)) k' =
      true := by
  induction fs with
  | nil => simp [dictHasKey] at h
  | cons kv rest ih =>
    simp only [dictHasKey, List.any_cons, Bool.or_eq_true] at h
    simp only [List.map_cons, dictHasKey, List.any_cons, Bool.or_eq_true]
    rcases h with h | h
    · left
      by_cases hk : kv.1 = k
      · have hkk : (kv.1 == k) = true := beq_iff_eq.mpr hk
        have hkeq : k' = k := by rw [← hk]; exact (beq_iff_eq.mp h).symm
        subst hkeq
        simp [hkk]
      · have hkk : (kv.1 == k) = false := by
          simpa using hk
        simp [hkk, h]
    · right
      exact ih h

/-- Setting a key makes it present. -/
theorem dictHasKey_set_self (fs : List (String × JVal)) (k : String)
    (v : JVal) : dictHasKey (dictSet fs k v) k = true := by
  unfold dictSet
  cases hc : fs.any (fun kv => kv.1 == k) with
  | true =>
    simp only [hc, eq_self_iff_true, if_true]
    exact dictHasKey_map_set fs k k v hc
  | false =>
    simp [hc, dictHasKey, List.any_append]

/-- Setting a key keeps every key that was already present. -/
theorem dictHasKey_set_mono (fs : List (String × JVal)) (k k' : String)
    (v : JVal) (h : dictHasKey fs k' = true) :
    dictHasKey (dictSet fs k v) k' = true := by
  unfold dictSet
  cases hc : fs.any (fun kv => kv.1 == k) with
  | true =>
    simp only [hc, eq_self_iff_true, if_true]
    exact dictHasKey_map_set fs k k' v h
  | false =>
    simp only [hc, Bool.false_eq_true, if_false, dictHasKey, List.any_append,
      Bool.or_eq_true]
    left
    exact h

/-- Claim C2 counterexample: for the plain-text input "hello" the assembled
record has neither a `sections` nor a `details` entry (the dispatched text
parser only contributes raw_content, changes and summary), so not every
field of the data model is present on every record. -/
theorem record_misses_sections_details :
    (parseResponse (fun _ => false) "f" "t" "hello").map
      (fun r => (hasKeyJ r "sections", hasKeyJ r "details")) =
      .ok (false, false) := rfl

/-- Claim C2 (corrected): whenever `parse_response` returns a record at all,
that record has `patches`, `commits` and `metadata` entries — they are
attached unconditionally after the shape parser runs, regardless of the
detected shape; the remaining fields of the data model are only those the
dispatched shape parser happens to produce. -/
theorem assembler_attaches_extractor_fields (yamlOk : String → Bool)
    (file now content : String) (r : JVal)
    (h : parseResponse yamlOk file now content = .ok r) :
    hasKeyJ r "patches" = true ∧ hasKeyJ r "commits" = true ∧
      hasKeyJ r "metadata" = true := by
  unfold parseResponse at h
  obtain ⟨pd, hpd, h1⟩ := except_bind_ok h
  obtain ⟨q1, hq1, h2⟩ := except_bind_ok h1
  obtain ⟨q2, hq2, h3⟩ := except_bind_ok h2
  obtain ⟨f0, hx0, hr1⟩ := setItemJ_ok hq1
  subst hr1
  simp only [setItemJ] at hq2
  injection hq2 with hq2
  subst hq2
  simp only [setItemJ] at h3
  injection h3 with h3
  subst h3
  simp only [hasKeyJ]
  refine ⟨?_, ?_, ?_⟩
  · exact dictHasKey_set_mono _ _ _ _
      (dictHasKey_set_mono _ _ _ _ (dictHasKey_set_self _ _ _))
  · exact dictHasKey_set_mono _ _ _ _ (dictHasKey_set_self _ _ _)
  · exact dictHasKey_set_self _ _ _

/-- Witness for `assembler_attaches_extractor_fields` at the concrete input
"hi". -/
theorem assembler_attaches_extractor_fields_witness :
    hasKeyJ (.jobj
      [("raw_content", .jstr "hi"), ("changes", .jarr []),
       ("summary", .jstr "hi"), ("patches", .jarr []),
       ("commits", .jarr []),
       ("metadata", .jobj
         [("response_file", .jstr "f"), ("response_type", .jstr "text"),
          ("parsed_at", .jstr "t"), ("content_length", .jnum "2")])])
      "patches" = true ∧
    hasKeyJ (.jobj
      [("raw_content", .jstr "hi"), ("changes", .jarr []),
       ("summary", .jstr "hi"), ("patches", .jarr []),
       ("commits", .jarr []),
       ("metadata", .jobj
         [("response_file", .jstr "f"), ("response_type", .jstr "text"),
          ("parsed_at", .jstr "t"), ("content_length", .jnum "2")])])
      "commits" = true ∧
    hasKeyJ (.jobj
      [("raw_content", .jstr "hi"), ("changes", .jarr []),
       ("summary", .jstr "hi"), ("patches", .jarr []),
       ("commits", .jarr []),
       ("metadata", .jobj
         [("response_file", .jstr "f"), ("response_type", .jstr "text"),
          ("parsed_at", .jstr "t"), ("content_length", .jnum "2")])])
      "metadata" = true :=
  assembler_attaches_extractor_fields (fun _ => false) "f" "t" "hi" _ rfl

/-- The deduplication worker returns a duplicate-free list avoiding `seen`. -/
theorem dedupFirstGo_nodup (l : List String) :
    ∀ seen, (dedupFirstGo l seen).Nodup ∧
      ∀ x ∈ dedupFirstGo l seen, ¬ x ∈ seen := by
  induction l with
  | nil => intro seen; simp [dedupFirstGo]
  | cons y ys ih =>
    intro seen
    by_cases hy : y ∈ seen
    · have hyb : seen.contains y = true := List.elem_iff.mpr hy
      simp only [dedupFirstGo, hyb, eq_self_iff_true, if_true]
      exact ih seen
    · have hyb : seen.contains y = false := by
        cases hcb : seen.contains y with
        | false => rfl
        | true => exact absurd (List.elem_iff.mp hcb) hy
      simp only [dedupFirstGo, hyb, Bool.false_eq_true, if_false]
      constructor
      · refine List.nodup_cons.mpr ⟨?_, (ih (y :: seen)).1⟩
        intro hmem
        exact (ih (y :: seen)).2 y hmem (List.mem_cons_self y seen)
      · intro x hx
        rcases List.mem_cons.mp hx with rfl | hx
        · exact hy
        · intro hc
          exact (ih (y :: seen)).2 x hx (List.mem_cons_of_mem y hc)

/-- `dedupFirst` yields a duplicate-free list. -/
theorem dedupFirst_nodup (l : List String) : (dedupFirst l).Nodup :=
  (dedupFirstGo_nodup l []).1

/-- Claim C6 (confirmed): the commit-message extractor returns exactly the
pipeline the claim describes — the four pattern families' captures in
pattern order, trimmed, kept only when longer than 10 characters,
deduplicated preserving first occurrence, truncated to the first 5 — and so
its result never has more than 5 entries and never repeats a message. -/
theorem commit_messages_match_spec (content : String) :
    extractCommitMessages content = commitMessagesSpec content ∧
    (extractCommitMessages content).length ≤ 5 ∧
    (extractCommitMessages content).Nodup := by
  have heq : extractCommitMessages content = commitMessagesSpec content := by
    unfold extractCommitMessages commitMessagesSpec commitCandidates
    simp [List.append_assoc]
  refine ⟨heq, ?_, ?_⟩
  · unfold extractCommitMessages
    simp [List.length_take]
  · unfold extractCommitMessages
    exact (dedupFirst_nodup _).sublist (List.take_sublist _ _)

/-- Claim C10 (confirmed): when the detected shape is "yaml" the assembler
dispatches to the plain-text parser (the parser table has no yaml entry and
`.get` falls back), so the YAML text is never parsed as YAML: the record
carries the text parser's `raw_content`, heuristic `changes` and
500-character `summary`, while `metadata` still records shape "yaml". -/
theorem yaml_shape_handled_as_plain_text (yamlOk : String → Bool)
    (file now content : String)
    (h : detectResponseType yamlOk content = "yaml") :
    parseResponse yamlOk file now content = .ok (.jobj
      [("raw_content", .jstr content),
       ("changes", .jarr (extractChangesFromText content)),
       ("summary", .jstr (if pyLen content > 500 then
          pyTake content 500 ++ "..." else content)),
       ("patches", .jarr ((extractPatches content).map patchToJ)),
       ("commits", .jarr ((extractCommitMessages content).map JVal.jstr)),
       ("metadata", .jobj
         [("response_file", .jstr file), ("response_type", .jstr "yaml"),
          ("parsed_at", .jstr now),
          ("content_length", .jnum (toString (pyLen content)))])]) := by
  unfold parseResponse
  rw [h]
  rfl

/-- Splitting a prefix test along an append. -/
theorem isPrefixOf_append (a b s : List Char) :
    (a ++ b).isPrefixOf s = (a.isPrefixOf s && b.isPrefixOf (s.drop a.length)) := by
  induction a generalizing s with
  | nil => simp [List.isPrefixOf]
  | cons c cs ih =>
    cases s with
    | nil => simp [List.isPrefixOf]
    | cons d t => simp [List.isPrefixOf, ih, Bool.and_assoc]

/-- After consuming a literal, the previous-character marker is its last
character when it has one. -/
theorem lastO_cons (c : Char) (cs : List Char) (prev : Option Char) :
    lastO cs (some c) = lastO (c :: cs) prev := by
  cases cs with
  | nil => simp [lastO, List.getLast?]
  | cons e es =>
    cases hg : (e :: es).getLast? with
    | some x => simp [lastO, List.getLast?_cons_cons, hg]
    | none => simp at hg

/-- Matching a compiled literal consumes exactly that prefix when present
and fails otherwise. -/
theorem reM_lit (cs : List Char) (fuel : Nat) (prev : Option Char) (pos : Nat)
    (s : List Char) (caps : Caps)
    (k : Option Char → Nat → List Char → Caps → Option (Nat × Caps))
    (hf : 2 * cs.length + 1 ≤ fuel) :
    reM fuel (cs.foldr (fun c r => .rseq (chr c) r) .eps) prev pos s caps k =
      if cs.isPrefixOf s then
        k (lastO cs prev) (pos + cs.length) (s.drop cs.length) caps
      else none := by
  induction cs generalizing fuel prev pos s with
  | nil =>
    obtain ⟨f, rfl⟩ : ∃ f, fuel = f + 1 := ⟨fuel - 1, by omega⟩
    simp [reM, List.isPrefixOf, lastO, List.getLast?]
  | cons c cs ih =>
    obtain ⟨f, rfl⟩ : ∃ f, fuel = f + 2 :=
      ⟨fuel - 2, by simp [List.length_cons] at hf; omega⟩
    have hf2 : 2 * cs.length + 1 ≤ f + 1 := by
      simp [List.length_cons] at hf; omega
    cases s with
    | nil =>
      have hstep : reM (f + 2)
          ((c :: cs).foldr (fun c r => Re.rseq (chr c) r) .eps)
          prev pos [] caps k = none := rfl
      rw [hstep]
      simp [List.isPrefixOf]
    | cons d t =>
      have hstep : reM (f + 2)
          ((c :: cs).foldr (fun c r => Re.rseq (chr c) r) .eps)
          prev pos (d :: t) caps k =
          if (d == c) = true then
            reM (f + 1) (cs.foldr (fun c r => Re.rseq (chr c) r) .eps)
              (some d) (pos + 1) t caps k
          else none := rfl
      rw [hstep]
      by_cases hd : d = c
      · subst hd
        rw [if_pos (show (d == d) = true by simp),
          ih (f + 1) (some d) (pos + 1) t hf2]
        have h1 : (d :: cs).isPrefixOf (d :: t) = cs.isPrefixOf t := by
          simp [List.isPrefixOf]
        have h2 : pos + (d :: cs).length = pos + 1 + cs.length := by
          simp [List.length_cons]; omega
        have h3 : (d :: t).drop (d :: cs).length = t.drop cs.length := by
          simp [List.length_cons]
        rw [h1, h2, h3, ← lastO_cons]
      · have h1 : (d == c) = false := by simpa using hd
        have h2 : (c == d) = false := by simpa using (Ne.symm hd)
        simp [h1, h2, List.isPrefixOf]

/-- Attempting the classifier's fence pattern at one position succeeds
exactly when one of the three tagged-fence literals starts there. -/
theorem reTry_fenceTag_isSome (prev : Option Char) (s : List Char) :
    (reTry fenceTagPat prev s).isSome =
      ("```json".data.isPrefixOf s ||
        ("```patch".data.isPrefixOf s || "```diff".data.isPrefixOf s)) := by
  have hstep : reTry fenceTagPat prev s =
      reM 999999 ("```".data.foldr (fun c r => Re.rseq (chr c) r) .eps) prev 0 s []
        (fun pr po st cp =>
          reM 999999
            (.ralt ("json".data.foldr (fun c r => Re.rseq (chr c) r) .eps)
              (.ralt ("patch".data.foldr (fun c r => Re.rseq (chr c) r) .eps)
                ("diff".data.foldr (fun c r => Re.rseq (chr c) r) .eps)))
            pr po st cp (fun _ po2 _ cp2 => some (po2, cp2))) := rfl
  rw [hstep, reM_lit "```".data 999999 prev 0 s [] _ (by decide)]
  have e1 : "```json".data.isPrefixOf s =
      ("```".data.isPrefixOf s && "json".data.isPrefixOf (s.drop "```".data.length)) := by
    rw [show "```json".data = "```".data ++ "json".data from rfl, isPrefixOf_append]
  have e2 : "```patch".data.isPrefixOf s =
      ("```".data.isPrefixOf s && "patch".data.isPrefixOf (s.drop "```".data.length)) := by
    rw [show "```patch".data = "```".data ++ "patch".data from rfl, isPrefixOf_append]
  have e3 : "```diff".data.isPrefixOf s =
      ("```".data.isPrefixOf s && "diff".data.isPrefixOf (s.drop "```".data.length)) := by
    rw [show "```diff".data = "```".data ++ "diff".data from rfl, isPrefixOf_append]
  rw [e1, e2, e3]
  cases hpre : "```".data.isPrefixOf s with
  | false => simp [hpre]
  | true =>
    simp only [hpre, Bool.true_and, if_true]
    have halt : ∀ (pr : Option Char) (po : Nat) (st : List Char) (cp : Caps),
        reM 999999
          (.ralt ("json".data.foldr (fun c r => Re.rseq (chr c) r) .eps)
            (.ralt ("patch".data.foldr (fun c r => Re.rseq (chr c) r) .eps)
              ("diff".data.foldr (fun c r => Re.rseq (chr c) r) .eps)))
          pr po st cp (fun _ po2 _ cp2 => some (po2, cp2)) =
        match reM 999998 ("json".data.foldr (fun c r => Re.rseq (chr c) r) .eps)
            pr po st cp (fun _ po2 _ cp2 => some (po2, cp2)) with
        | some res => some res
        | none =>
          match reM 999997 ("patch".data.foldr (fun c r => Re.rseq (chr c) r) .eps)
              pr po st cp (fun _ po2 _ cp2 => some (po2, cp2)) with
          | some res => some res
          | none =>
            reM 999997 ("diff".data.foldr (fun c r => Re.rseq (chr c) r) .eps)
              pr po st cp (fun _ po2 _ cp2 => some (po2, cp2)) := by
      intro pr po st cp
      rfl
    rw [halt, reM_lit "json".data 999998 _ _ _ _ _ (by decide),
      reM_lit "patch".data 999997 _ _ _ _ _ (by decide),
      reM_lit "diff".data 999997 _ _ _ _ _ (by decide)]
    cases hj : "json".data.isPrefixOf (s.drop "```".data.length) with
    | true => simp [hj]
    | false =>
      cases hp : "patch".data.isPrefixOf (s.drop "```".data.length) with
      | true => simp [hj, hp]
      | false =>
        cases hdf : "diff".data.isPrefixOf (s.drop "```".data.length) with
        | true => simp [hj, hp, hdf]
        | false => simp [hj, hp, hdf]

/-- The leftmost search for the classifier's fence pattern succeeds exactly
when the text contains one of the three tagged-fence substrings. -/
theorem reSearchFrom_fence_isSome (s : List Char) : ∀ prev : Option Char,
    (reSearchFrom fenceTagPat prev s).isSome =
      (strContains "```json".data s ||
        (strContains "```patch".data s || strContains "```diff".data s)) := by
  induction s with
  | nil =>
    intro prev
    have h := reTry_fenceTag_isSome prev []
    rw [show ("```json".data.isPrefixOf ([] : List Char)) = false from rfl,
      show ("```patch".data.isPrefixOf ([] : List Char)) = false from rfl,
      show ("```diff".data.isPrefixOf ([] : List Char)) = false from rfl] at h
    cases htry : reTry fenceTagPat prev [] with
    | some q => rw [htry] at h; simp at h
    | none =>
      simp only [reSearchFrom, htry]
      rw [show strContains "```json".data ([] : List Char) = false from rfl,
        show strContains "```patch".data ([] : List Char) = false from rfl,
        show strContains "```diff".data ([] : List Char) = false from rfl]
      rfl
  | cons c t ih =>
    intro prev
    have hor : (reSearchFrom fenceTagPat prev (c :: t)).isSome =
        ((reTry fenceTagPat prev (c :: t)).isSome ||
          (reSearchFrom fenceTagPat (some c) t).isSome) := by
      simp only [reSearchFrom]
      cases reTry fenceTagPat prev (c :: t) with
      | some q => obtain ⟨n, cp⟩ := q; simp
      | none =>
        cases hsr : reSearchFrom fenceTagPat (some c) t with
        | some q2 => obtain ⟨a, b⟩ := q2; simp [hsr]
        | none => simp [hsr]
    rw [hor, reTry_fenceTag_isSome, ih (some c)]
    rw [show strContains "```json".data (c :: t) =
        ("```json".data.isPrefixOf (c :: t) || strContains "```json".data t)
        from rfl]
    rw [show strContains "```patch".data (c :: t) =
        ("```patch".data.isPrefixOf (c :: t) || strContains "```patch".data t)
        from rfl]
    rw [show strContains "```diff".data (c :: t) =
        ("```diff".data.isPrefixOf (c :: t) || strContains "```diff".data t)
        from rfl]
    generalize "```json".data.isPrefixOf (c :: t) = b1
    generalize "```patch".data.isPrefixOf (c :: t) = b2
    generalize "```diff".data.isPrefixOf (c :: t) = b3
    generalize strContains "```json".data t = b4
    generalize strContains "```patch".data t = b5
    generalize strContains "```diff".data t = b6
    cases b1 <;> cases b2 <;> cases b3 <;> cases b4 <;> cases b5 <;>
      cases b6 <;> rfl

/-- `re.search` of the classifier's fence pattern over a string is the
three-way substring containment test. -/
theorem fence_search_eq_contains (content : String) :
    (reSearch fenceTagPat content).isSome = hasFenceTagSub content := by
  unfold reSearch hasFenceTagSub
  rw [reSearchFrom_fence_isSome content.data none, Bool.or_assoc]

/-- Claim C5 (corrected): the format classifier always returns exactly one
tag out of json / yaml / mixed / markdown / text, deciding first-match-wins
in the claimed order, with condition (3) amended to what the code performs:
the text contains three backticks immediately followed by json, patch or
diff (a prefix match on the tag, no closing fence required).
`detectAmended` states exactly that amended rule, without regular
expressions, and the classifier agrees with it on every input. -/
theorem detect_matches_amended_spec (yamlOk : String → Bool)
    (content : String) :
    detectResponseType yamlOk content = detectAmended yamlOk content ∧
    (detectResponseType yamlOk content = "json" ∨
      detectResponseType yamlOk content = "yaml" ∨
      detectResponseType yamlOk content = "mixed" ∨
      detectResponseType yamlOk content = "markdown" ∨
      detectResponseType yamlOk content = "text") := by
  constructor
  · unfold detectResponseType detectAmended
    simp only [fence_search_eq_contains]
  · simp only [detectResponseType]
    cases h1 : ((stripChars content.data).head? == some lbrace ||
        (stripChars content.data).head? == some '[') &&
        (jsonParse content).isSome with
    | true => simp [h1]
    | false =>
      simp only [h1, Bool.false_eq_true, if_false]
      cases h2 : strContains "---".data (content.data.take 100) &&
          yamlOk content with
      | true => simp [h2]
      | false =>
        simp only [h2, Bool.false_eq_true, if_false]
        cases h3 : (reSearch fenceTagPat content).isSome with
        | true => simp [h3]
        | false =>
          simp only [h3, Bool.false_eq_true, if_false]
          cases h4 : (reSearch headingPat content).isSome with
          | true => simp [h4]
          | false => simp [h4]

/-- Witness for `yaml_shape_handled_as_plain_text` at the concrete input
"--- a\n" with an oracle that accepts it. -/
theorem yaml_shape_handled_as_plain_text_witness :
    parseResponse (fun _ => true) "f" "t" "--- a\n" = .ok (.jobj
      [("raw_content", .jstr "--- a\n"), ("changes", .jarr []),
       ("summary", .jstr "--- a\n"), ("patches", .jarr []),
       ("commits", .jarr []),
       ("metadata", .jobj
         [("response_file", .jstr "f"), ("response_type", .jstr "yaml"),
          ("parsed_at", .jstr "t"), ("content_length", .jnum "6")])]) :=
  yaml_shape_handled_as_plain_text (fun _ => true) "f" "t" "--- a\n" rfl

end LlmProc
